import Mathlib

/-!
Verification of the incremental aggregation and merge engine of
`src/merolagani_scraper.py` (class `MerolaganiFloorsheetScraper`).

Numeric values (`quantity`, `rate`, `amount` and all aggregate sums and
averages) are embedded as rationals `ℚ`; stores are embedded as finite-support
mappings `Key → Option AggRow`, which is the observable content of the pandas
DataFrames keyed by `(broker_id, broker_name, symbol)`.
-/

namespace Floorsheet

/-- One parsed trade, as produced by `_extract_transactions` (lines 134-146
of `merolagani_scraper.py`). -/
structure Txn where
  date : String
  transaction_no : String
  symbol : String
  symbol_full : String
  buyer_id : String
  buyer_name : String
  seller_id : String
  seller_name : String
  quantity : ℚ
  rate : ℚ
  amount : ℚ
deriving DecidableEq, Repr

/-- Composite key of a broker-stock aggregate row: (broker_id, broker_name, symbol). -/
abbrev Key := String × String × String

/-- One row of the aggregate store (`broker_stock_summary.parquet`).
`last_updated` is `Option String` because the code writes
`data['date'].iloc[0] if not data.empty else None`. -/
structure AggRow where
  buy_quantity : ℚ
  buy_amount : ℚ
  sell_quantity : ℚ
  sell_amount : ℚ
  avg_buy_price : ℚ
  avg_sell_price : ℚ
  net_quantity : ℚ
  avg_holding_price : ℚ
  last_updated : Option String
deriving DecidableEq, Repr

/-- The aggregate store as a mapping from composite key to row. -/
abbrev Store := Key → Option AggRow

/-- The eight numeric fields of a row (everything except `last_updated`). -/
def AggRow.data (r : AggRow) : ℚ × ℚ × ℚ × ℚ × ℚ × ℚ × ℚ × ℚ :=
  (r.buy_quantity, r.buy_amount, r.sell_quantity, r.sell_amount,
   r.avg_buy_price, r.avg_sell_price, r.net_quantity, r.avg_holding_price)

/-- Buyer-side key of a transaction (line 350: `(row['buyer_id'], row['buyer_name'], row['symbol'])`). -/
def buyerKey (t : Txn) : Key := (t.buyer_id, t.buyer_name, t.symbol)

/-- Seller-side key of a transaction (line 374). -/
def sellerKey (t : Txn) : Key := (t.seller_id, t.seller_name, t.symbol)

/-- Sum of `quantity` over the batch rows whose buyer key is `k`: the value
`buy_quantity` produced by `data.groupby(['buyer_id','buyer_name','symbol']).agg(buy_quantity=('quantity','sum'))`
(lines 343-346) for group `k`. -/
def buyQty (b : List Txn) (k : Key) : ℚ :=
  ((b.filter fun t => buyerKey t = k).map Txn.quantity).sum

/-- Sum of `amount` over the batch rows whose buyer key is `k` (`buy_amount`, lines 343-346). -/
def buyAmt (b : List Txn) (k : Key) : ℚ :=
  ((b.filter fun t => buyerKey t = k).map Txn.amount).sum

/-- Sum of `quantity` over the batch rows whose seller key is `k` (`sell_quantity`, lines 367-370). -/
def sellQty (b : List Txn) (k : Key) : ℚ :=
  ((b.filter fun t => sellerKey t = k).map Txn.quantity).sum

/-- Sum of `amount` over the batch rows whose seller key is `k` (`sell_amount`, lines 367-370). -/
def sellAmt (b : List Txn) (k : Key) : ℚ :=
  ((b.filter fun t => sellerKey t = k).map Txn.amount).sum

/-- The batch date used for `last_updated`:
`current_date = data['date'].iloc[0] if not data.empty else None` (line 337). -/
def currentDate : List Txn → Option String
  | [] => none
  | t :: _ => some t.date

/-- Builds a complete aggregate row from the four sums, computing the four
derived fields exactly as lines 394-417 do:
`avg_buy_price = buy_amount / buy_quantity if buy_quantity > 0 else 0`,
`avg_sell_price = sell_amount / sell_quantity if sell_quantity > 0 else 0`,
`net_quantity = buy_quantity - sell_quantity`,
`avg_holding_price = (buy_amount - sell_amount) / net_quantity if net_quantity > 0 else 0`. -/
def withDerived (bq ba sq sa : ℚ) (d : Option String) : AggRow :=
  { buy_quantity := bq
  , buy_amount := ba
  , sell_quantity := sq
  , sell_amount := sa
  , avg_buy_price := if 0 < bq then ba / bq else 0
  , avg_sell_price := if 0 < sq then sa / sq else 0
  , net_quantity := bq - sq
  , avg_holding_price := if 0 < bq - sq then (ba - sa) / (bq - sq) else 0
  , last_updated := d }

/-- The keys touched by a batch: every buyer key and every seller key of some
row (the keys inserted into `broker_stock_aggs` by the two loops at
lines 349-388). -/
def batchKeys (b : List Txn) : List Key :=
  b.map buyerKey ++ b.map sellerKey

/-- The Batch Aggregator (lines 340-417): the content of `agg_df` as a mapping.
A key present in the batch (as a buyer key or a seller key) maps to the row
whose four sums are the groupby sums of lines 343-388 (a side the key never
appears on contributes 0, the dict initialisation of lines 352-361 / 376-385)
and whose derived fields are computed by lines 394-417; any other key is
absent. -/
def batchAggMap (b : List Txn) : Store := fun k =>
  if k ∈ batchKeys b then
    some (withDerived (buyQty b k) (buyAmt b k) (sellQty b k) (sellAmt b k) (currentDate b))
  else none

/-- The merge of one existing row with one batch row (lines 445-470): the four
sums are added field-wise, the four derived fields are recomputed from the new
sums, and `last_updated` becomes the batch date `d`. -/
def updateRow (p r : AggRow) (d : Option String) : AggRow :=
  withDerived (p.buy_quantity + r.buy_quantity) (p.buy_amount + r.buy_amount)
    (p.sell_quantity + r.sell_quantity) (p.sell_amount + r.sell_amount) d

/-- The Merge Engine (lines 432-484) as a mapping: every batch key is either
merged with the matching existing record (lines 440-474) or inserted as-is
(lines 475-477); every remaining existing record is carried forward unchanged
(lines 479-481). -/
def mergeStore (prev newAgg : Store) (d : Option String) : Store := fun k =>
  match newAgg k, prev k with
  | some r, some p => some (updateRow p r d)
  | some r, none => some r
  | none, some p => some p
  | none, none => none

/-- Key-wise combination of two batch-local aggregate mappings: on a key both
batches touch, the four sums are added and the derived fields recomputed by
the formulas of lines 394-417 (which is `updateRow`); a key only one batch
touches keeps that batch's row. This is the batch-local mapping of the
combined batch referred to by the merge-associativity property. -/
def combineBatch (A B : Store) : Store := fun k =>
  match A k, B k with
  | some a, some b => some (updateRow a b b.last_updated)
  | some a, none => some a
  | none, some b => some b
  | none, none => none

/-- A row is well-formed when its four derived fields agree with the formulas
of lines 394-417 applied to its own four sums. -/
def WellFormed (r : AggRow) : Prop :=
  r.avg_buy_price = (if 0 < r.buy_quantity then r.buy_amount / r.buy_quantity else 0) ∧
  r.avg_sell_price = (if 0 < r.sell_quantity then r.sell_amount / r.sell_quantity else 0) ∧
  r.net_quantity = r.buy_quantity - r.sell_quantity ∧
  r.avg_holding_price = (if 0 < r.net_quantity then (r.buy_amount - r.sell_amount) / r.net_quantity else 0)

/-- The whole of `aggregate_broker_stock_data` (lines 317-506) on a
well-formed batch, as a state function.  `store` describes the persisted
aggregate file: `none` when the file does not exist (line 420 test fails,
lines 490-492 take `aggregated_df = agg_df`), `some (Except.error _)` when it
exists but reading or merging raises (lines 487-489 take
`aggregated_df = agg_df`), `some (Except.ok prev)` when it is read
successfully (lines 432-484 merge).  The result is the pair
(returned success flag, store written by lines 499-500, `none` when nothing
is written because the batch is empty, lines 328-330). -/
def aggregate_broker_stock_data (df : List Txn) (store : Option (Except Unit Store)) :
    Bool × Option Store :=
  if df.isEmpty then (false, none)
  else
    let aggDf := batchAggMap df
    let d := currentDate df
    let out := match store with
      | none => aggDf
      | some (Except.error _) => aggDf
      | some (Except.ok prev) => mergeStore prev aggDf d
    (true, some out)

/-- The dedup key of the raw-transaction path:
`df['key'] = df['date'] + '-' + df['transaction_no']` (lines 255-256). -/
def rawKey (t : Txn) : String := t.date ++ "-" ++ t.transaction_no

/-- The raw dedup merge of `save_to_parquet` (lines 252-267): keep the batch
rows whose key is not among the existing keys
(`new_records = df[~df['key'].isin(existing_df['key'])]`, line 259) and append
them to the existing rows (`pd.concat([existing_df, new_records])`, line 267). -/
def dedupMerge (existing batch : List Txn) : List Txn :=
  existing ++ batch.filter fun t => rawKey t ∉ existing.map rawKey

/-- A pandas DataFrame of raw transactions as observed by a caller of
`save_to_parquet`: its rows, whether it has the `date` and `transaction_no`
columns (line 253 checks this), and the content of its `key` column when one
has been added (`none` when the DataFrame has no `key` column). -/
structure PandasDF where
  rows : List Txn
  hasDateCols : Bool
  keyCol : Option (List String)
deriving DecidableEq, Repr

/-- The append path of `save_to_parquet` (lines 223-287) as a state function.
`existing` describes the persisted raw file: `none` when it does not exist,
`some (Except.error _)` when reading it raises (lines 276-278 fall back to
saving the new data only), `some (Except.ok ex)` when it is read.  Returns
(the state of the caller's DataFrame after the call, the rows written).
When the file is readable and the dedup columns are present, line 255 writes
the `key` column into the caller's DataFrame `df` itself; lines 260-261 drop
it only from the separate frames `new_records` and `existing_df`, never from
`df`. -/
def save_to_parquet (df : PandasDF) (append : Bool) (existing : Option (Except Unit (List Txn))) :
    PandasDF × Option (List Txn) :=
  if df.rows.isEmpty then (df, none)
  else
    match append, existing with
    | true, some (Except.ok ex) =>
      if df.hasDateCols then
        ({ df with keyCol := some (df.rows.map rawKey) }, some (dedupMerge ex df.rows))
      else (df, some (ex ++ df.rows))
    | true, some (Except.error _) => (df, some df.rows)
    | _, _ => (df, some df.rows)

/-- A transaction record whose required numeric fields may be absent or
non-numeric (`none`).  Such a record cannot be represented by `Txn`; this type
models the input of the aggregation step when the upstream parser guarantee is
violated. -/
structure RawRecord where
  date : String
  transaction_no : String
  symbol : String
  symbol_full : String
  buyer_id : String
  buyer_name : String
  seller_id : String
  seller_name : String
  quantity : Option ℚ
  rate : Option ℚ
  amount : Option ℚ
deriving DecidableEq, Repr

/-- Modelled from the spec: reading one record's required numeric fields
inside the aggregation step.  The numeric semantics of pandas on absent or
non-numeric values are outside this repository; per the spec's premise, an
absent or non-numeric required field makes the computation inside the `try`
body of `aggregate_broker_stock_data` raise, here an `Except.error`. -/
def toTxn (r : RawRecord) : Except Unit Txn :=
  match r.quantity, r.rate, r.amount with
  | some q, some rt, some a =>
    Except.ok ⟨r.date, r.transaction_no, r.symbol, r.symbol_full, r.buyer_id,
      r.buyer_name, r.seller_id, r.seller_name, q, rt, a⟩
  | _, _, _ => Except.error ()

/-- Modelled from the spec: reading a whole batch of possibly-malformed
records; any malformed record makes the batch computation raise. -/
def parseBatch : List RawRecord → Except Unit (List Txn)
  | [] => Except.ok []
  | r :: rs =>
    match toTxn r, parseBatch rs with
    | Except.ok t, Except.ok ts => Except.ok (t :: ts)
    | Except.error e, _ => Except.error e
    | _, Except.error e => Except.error e

/-- `aggregate_broker_stock_data` called on possibly-malformed records: an
error raised inside the `try` body is caught by the blanket handler at lines
504-506, which prints, writes nothing, and returns `False`; otherwise the
normal path runs. -/
def aggregateStepRaw (rs : List RawRecord) (store : Option (Except Unit Store)) :
    Bool × Option Store :=
  match parseBatch rs with
  | Except.error _ => (false, none)
  | Except.ok df => aggregate_broker_stock_data df store

/-- The tail of `main` (lines 530-544): when the scraped DataFrame is empty,
`sys.exit(1)`; otherwise `aggregate_broker_stock_data` is called, its return
value is ignored, the summary is printed and the process exits 0. -/
def mainExitCode (rs : List RawRecord) (store : Option (Except Unit Store)) : Nat :=
  if rs.isEmpty then 1
  else
    let _ := aggregateStepRaw rs store
    0

/-! Concrete sample data used by the witness theorems. -/

/-- Sample transaction: broker B1 buys 10 ABC from broker B2 for 1000. -/
def tx1 : Txn :=
  ⟨"2025-01-01", "1", "ABC", "ABC Company", "B1", "Broker One", "B2", "Broker Two",
    10, 100, 1000⟩

/-- Sample transaction: broker B2 buys 5 ABC from broker B1 for 500. -/
def tx2 : Txn :=
  ⟨"2025-01-01", "2", "ABC", "ABC Company", "B2", "Broker Two", "B1", "Broker One",
    5, 100, 500⟩

/-- Sample key: broker B1 on symbol ABC. -/
def k1 : Key := ("B1", "Broker One", "ABC")

/-- Sample pre-existing aggregate row for `k1`. -/
def prevRow1 : AggRow := withDerived 100 25000 40 11000 (some "2024-12-31")

/-- Sample previous store containing exactly the key `k1`. -/
def prevStore1 : Store := fun k => if k = k1 then some prevRow1 else none

/-- The batch-local row of `k1` in the batch `[tx1, tx2]`. -/
def batchRow1 : AggRow :=
  withDerived (buyQty [tx1, tx2] k1) (buyAmt [tx1, tx2] k1)
    (sellQty [tx1, tx2] k1) (sellAmt [tx1, tx2] k1) (currentDate [tx1, tx2])

/-- Sample key (broker B9 on symbol XYZ) untouched by the sample batches. -/
def k2 : Key := ("B9", "Broker Nine", "XYZ")

/-- Sample previous store containing exactly the key `k2`. -/
def prevStore2 : Store := fun k => if k = k2 then some prevRow1 else none

/-- Sample malformed record: its `quantity` field is absent. -/
def badRec : RawRecord :=
  ⟨"2025-01-01", "9", "ABC", "ABC Company", "B1", "Broker One", "B2", "Broker Two",
    none, some 100, some 1000⟩

example : batchAggMap [tx1, tx2] k1 = some batchRow1 := rfl
example : prevStore1 k1 = some prevRow1 := rfl
example : batchAggMap [tx1, tx2] k2 = none := rfl
example : prevStore2 k2 = some prevRow1 := rfl
example : parseBatch [badRec] = Except.error () := rfl
example : aggregateStepRaw [badRec] none = (false, none) := rfl
example : mainExitCode [badRec] none = 0 := rfl

/-! Helper lemmas shared by the claim theorems. -/

/-- The eight numeric fields determined by four sums alone, via the derived-field
formulas of lines 394-417; `AggRow.data` of any `withDerived` row. -/
def sumsData (bq ba sq sa : ℚ) : ℚ × ℚ × ℚ × ℚ × ℚ × ℚ × ℚ × ℚ :=
  (bq, ba, sq, sa, if 0 < bq then ba / bq else 0, if 0 < sq then sa / sq else 0,
   bq - sq, if 0 < bq - sq then (ba - sa) / (bq - sq) else 0)

lemma data_withDerived (bq ba sq sa : ℚ) (d : Option String) :
    (withDerived bq ba sq sa d).data = sumsData bq ba sq sa := rfl

lemma data_updateRow (p r : AggRow) (d : Option String) :
    (updateRow p r d).data
      = sumsData (p.buy_quantity + r.buy_quantity) (p.buy_amount + r.buy_amount)
          (p.sell_quantity + r.sell_quantity) (p.sell_amount + r.sell_amount) := rfl

lemma wellFormed_withDerived (bq ba sq sa : ℚ) (d : Option String) :
    WellFormed (withDerived bq ba sq sa d) :=
  ⟨rfl, rfl, rfl, rfl⟩

/-! Claim theorems. -/

/-- C1. For every key present both in the batch-local aggregates and in the
previous store, the merged row's four sums are the field-wise sums of the
previous row and the batch row, the four derived fields are recomputed from
the new sums by the formulas of spec section 3, and `last_updated` is the
batch's trade date. -/
theorem mergeEngine_existing_key (prev : Store) (b : List Txn) (k : Key) (p r : AggRow)
    (hp : prev k = some p) (hr : batchAggMap b k = some r) :
    mergeStore prev (batchAggMap b) (currentDate b) k = some
      { buy_quantity := p.buy_quantity + r.buy_quantity
      , buy_amount := p.buy_amount + r.buy_amount
      , sell_quantity := p.sell_quantity + r.sell_quantity
      , sell_amount := p.sell_amount + r.sell_amount
      , avg_buy_price := if 0 < p.buy_quantity + r.buy_quantity then
          (p.buy_amount + r.buy_amount) / (p.buy_quantity + r.buy_quantity) else 0
      , avg_sell_price := if 0 < p.sell_quantity + r.sell_quantity then
          (p.sell_amount + r.sell_amount) / (p.sell_quantity + r.sell_quantity) else 0
      , net_quantity := (p.buy_quantity + r.buy_quantity) - (p.sell_quantity + r.sell_quantity)
      , avg_holding_price := if 0 < (p.buy_quantity + r.buy_quantity) - (p.sell_quantity + r.sell_quantity) then
          ((p.buy_amount + r.buy_amount) - (p.sell_amount + r.sell_amount))
            / ((p.buy_quantity + r.buy_quantity) - (p.sell_quantity + r.sell_quantity)) else 0
      , last_updated := currentDate b } := by
  unfold mergeStore
  rw [hr, hp]
  rfl

/-- Witness for C1 at the concrete store `prevStore1` and batch `[tx1, tx2]`. -/
theorem mergeEngine_existing_key_witness :
    mergeStore prevStore1 (batchAggMap [tx1, tx2]) (currentDate [tx1, tx2]) k1 = some
      { buy_quantity := prevRow1.buy_quantity + batchRow1.buy_quantity
      , buy_amount := prevRow1.buy_amount + batchRow1.buy_amount
      , sell_quantity := prevRow1.sell_quantity + batchRow1.sell_quantity
      , sell_amount := prevRow1.sell_amount + batchRow1.sell_amount
      , avg_buy_price := if 0 < prevRow1.buy_quantity + batchRow1.buy_quantity then
          (prevRow1.buy_amount + batchRow1.buy_amount) / (prevRow1.buy_quantity + batchRow1.buy_quantity) else 0
      , avg_sell_price := if 0 < prevRow1.sell_quantity + batchRow1.sell_quantity then
          (prevRow1.sell_amount + batchRow1.sell_amount) / (prevRow1.sell_quantity + batchRow1.sell_quantity) else 0
      , net_quantity := (prevRow1.buy_quantity + batchRow1.buy_quantity) - (prevRow1.sell_quantity + batchRow1.sell_quantity)
      , avg_holding_price := if 0 < (prevRow1.buy_quantity + batchRow1.buy_quantity) - (prevRow1.sell_quantity + batchRow1.sell_quantity) then
          ((prevRow1.buy_amount + batchRow1.buy_amount) - (prevRow1.sell_amount + batchRow1.sell_amount))
            / ((prevRow1.buy_quantity + batchRow1.buy_quantity) - (prevRow1.sell_quantity + batchRow1.sell_quantity)) else 0
      , last_updated := currentDate [tx1, tx2] } :=
  mergeEngine_existing_key prevStore1 [tx1, tx2] k1 prevRow1 batchRow1 rfl rfl

/-- C4. A key present in the previous store but absent from the batch
aggregates is carried forward completely unchanged by the merge: the output
row is the previous row itself, stale `last_updated` included. -/
theorem merge_carry_forward (prev A : Store) (d : Option String) (k : Key) (p : AggRow)
    (hp : prev k = some p) (hA : A k = none) :
    mergeStore prev A d k = some p := by
  unfold mergeStore
  rw [hA, hp]

/-- Witness for C4: the key `k2` of `prevStore2` is untouched by the batch
`[tx1, tx2]` and survives the merge unchanged. -/
theorem merge_carry_forward_witness :
    mergeStore prevStore2 (batchAggMap [tx1, tx2]) (currentDate [tx1, tx2]) k2 = some prevRow1 :=
  merge_carry_forward prevStore2 (batchAggMap [tx1, tx2]) (currentDate [tx1, tx2]) k2 prevRow1 rfl rfl

/-- C5. Every row produced by the Batch Aggregator is well-formed (its derived
fields satisfy the formulas and zero-denominator policy of lines 394-417), and
the Merge Engine preserves well-formedness: when every row of the previous
store and of the batch aggregates is well-formed, so is every merged row.  The
functions are total, so no input yields an error value. -/
theorem derived_field_policy :
    (∀ (b : List Txn) (k : Key) (r : AggRow), batchAggMap b k = some r → WellFormed r) ∧
    (∀ (prev A : Store) (d : Option String),
      (∀ k r, prev k = some r → WellFormed r) →
      (∀ k r, A k = some r → WellFormed r) →
      ∀ k r, mergeStore prev A d k = some r → WellFormed r) := by
  constructor
  · intro b k r h
    unfold batchAggMap at h
    by_cases hk : k ∈ batchKeys b
    · rw [if_pos hk, Option.some_inj] at h
      rw [← h]
      exact wellFormed_withDerived _ _ _ _ _
    · rw [if_neg hk] at h
      exact absurd h (Option.noConfusion)
  · intro prev A d hprev hA k r h
    unfold mergeStore at h
    cases hAk : A k with
    | some a =>
      cases hpk : prev k with
      | some p =>
        rw [hAk, hpk, Option.some_inj] at h
        rw [← h]
        exact wellFormed_withDerived _ _ _ _ _
      | none =>
        rw [hAk, hpk, Option.some_inj] at h
        rw [← h]
        exact hA k a hAk
    | none =>
      cases hpk : prev k with
      | some p =>
        rw [hAk, hpk, Option.some_inj] at h
        rw [← h]
        exact hprev k p hpk
      | none =>
        rw [hAk, hpk] at h
        exact absurd h (Option.noConfusion)

/-- Witness for C5: the concrete batch row of `k1` in `[tx1, tx2]` is
well-formed. -/
theorem derived_field_policy_witness : WellFormed batchRow1 :=
  derived_field_policy.1 [tx1, tx2] k1 batchRow1 rfl

/-- C7. When the previous aggregate store exists but reading or merging it
raises, `aggregate_broker_stock_data` does not abort: it returns success and
the persisted store is exactly the batch-local aggregates. -/
theorem aggregate_read_failure_fallback (df : List Txn) (e : Unit) (h : df ≠ []) :
    aggregate_broker_stock_data df (some (Except.error e)) = (true, some (batchAggMap df)) := by
  unfold aggregate_broker_stock_data
  rw [if_neg]
  simp only [List.isEmpty_iff]
  exact h

/-- Witness for C7 at the nonempty batch `[tx1, tx2]`. -/
theorem aggregate_read_failure_fallback_witness :
    aggregate_broker_stock_data [tx1, tx2] (some (Except.error ()))
      = (true, some (batchAggMap [tx1, tx2])) :=
  aggregate_read_failure_fallback [tx1, tx2] () (by decide)

/-- C2. Merge associativity: for any previous store `S`, any two batch-local
aggregate mappings `A` and `B` (any key overlap) and any batch dates, merging
`A` into `S` and then `B` into the result gives, key by key, the same numeric
and derived fields as merging into `S` the single mapping obtained by
combining `A` and `B` key-wise. -/
theorem merge_assoc (S A B : Store) (dA dB dC : Option String) (k : Key) :
    (mergeStore (mergeStore S A dA) B dB k).map AggRow.data
      = (mergeStore S (combineBatch A B) dC k).map AggRow.data := by
  unfold mergeStore combineBatch
  cases hA : A k with
  | none =>
    cases hB : B k with
    | none => cases hS : S k <;> rfl
    | some b => cases hS : S k <;> rfl
  | some a =>
    cases hB : B k with
    | none => cases hS : S k <;> rfl
    | some b =>
      cases hS : S k with
      | none => rfl
      | some p =>
        show some (sumsData (p.buy_quantity + a.buy_quantity + b.buy_quantity)
            (p.buy_amount + a.buy_amount + b.buy_amount)
            (p.sell_quantity + a.sell_quantity + b.sell_quantity)
            (p.sell_amount + a.sell_amount + b.sell_amount))
          = some (sumsData (p.buy_quantity + (a.buy_quantity + b.buy_quantity))
            (p.buy_amount + (a.buy_amount + b.buy_amount))
            (p.sell_quantity + (a.sell_quantity + b.sell_quantity))
            (p.sell_amount + (a.sell_amount + b.sell_amount)))
        rw [add_assoc, add_assoc, add_assoc, add_assoc]

/-- C3. Order independence of the Batch Aggregator: permuting the batch leaves
the resulting mapping unchanged key by key — same keys, same four sums, same
derived fields. -/
theorem batchAggregator_order_independent (b c : List Txn) (h : b.Perm c) (k : Key) :
    (batchAggMap b k).map AggRow.data = (batchAggMap c k).map AggRow.data := by
  have hkeys : (batchKeys b).Perm (batchKeys c) := (h.map buyerKey).append (h.map sellerKey)
  have h1 : buyQty b k = buyQty c k := List.Perm.sum_eq ((h.filter _).map Txn.quantity)
  have h2 : buyAmt b k = buyAmt c k := List.Perm.sum_eq ((h.filter _).map Txn.amount)
  have h3 : sellQty b k = sellQty c k := List.Perm.sum_eq ((h.filter _).map Txn.quantity)
  have h4 : sellAmt b k = sellAmt c k := List.Perm.sum_eq ((h.filter _).map Txn.amount)
  unfold batchAggMap
  by_cases hk : k ∈ batchKeys b
  · rw [if_pos hk, if_pos (hkeys.mem_iff.mp hk), h1, h2, h3, h4]
    rfl
  · rw [if_neg hk, if_neg (fun hc => hk (hkeys.mem_iff.mpr hc))]

/-- Witness for C3: swapping the two transactions of the sample batch leaves
the aggregate row of `k1` unchanged. -/
theorem batchAggregator_order_independent_witness :
    (batchAggMap [tx1, tx2] k1).map AggRow.data = (batchAggMap [tx2, tx1] k1).map AggRow.data :=
  batchAggregator_order_independent [tx1, tx2] [tx2, tx1] (List.Perm.swap tx2 tx1 []) k1

/-- C6. The raw dedup merge is first-write-wins and idempotent: every output
row comes from the previous table, or from the batch with a key absent from
the previous table; for a key already present, the rows at that key are
exactly the previous table's rows (the batch rows with that key are dropped,
nothing is overwritten); merging the identical batch a second time changes
nothing. -/
theorem raw_dedup_merge (e b : List Txn) :
    (∀ t ∈ dedupMerge e b, t ∈ e ∨ (t ∈ b ∧ rawKey t ∉ e.map rawKey)) ∧
    (∀ s : Txn, rawKey s ∈ e.map rawKey →
      ((dedupMerge e b).filter fun u => rawKey u = rawKey s)
        = e.filter fun u => rawKey u = rawKey s) ∧
    dedupMerge (dedupMerge e b) b = dedupMerge e b := by
  refine ⟨?_, ?_, ?_⟩
  · intro t ht
    rcases List.mem_append.mp ht with h1 | h1
    · exact Or.inl h1
    · obtain ⟨hb, hp⟩ := List.mem_filter.mp h1
      exact Or.inr ⟨hb, of_decide_eq_true hp⟩
  · intro s hs
    show ((e ++ b.filter fun t => decide (rawKey t ∉ e.map rawKey)).filter
        fun u => decide (rawKey u = rawKey s)) = _
    rw [List.filter_append]
    have hnil : ((b.filter fun t => decide (rawKey t ∉ e.map rawKey)).filter
        fun u => decide (rawKey u = rawKey s)) = [] := by
      rw [List.filter_eq_nil_iff]
      intro u hu hdec
      obtain ⟨hub, hkey⟩ := List.mem_filter.mp hu
      exact (of_decide_eq_true hkey) ((of_decide_eq_true hdec) ▸ hs)
    rw [hnil, List.append_nil]
  · have hnil : (b.filter fun t => decide (rawKey t ∉ (dedupMerge e b).map rawKey)) = [] := by
      rw [List.filter_eq_nil_iff]
      intro t htb hdec
      have hnotin := of_decide_eq_true hdec
      rw [dedupMerge, List.map_append] at hnotin
      by_cases hke : rawKey t ∈ e.map rawKey
      · exact hnotin (List.mem_append.mpr (Or.inl hke))
      · have ht' : t ∈ b.filter fun u => decide (rawKey u ∉ e.map rawKey) :=
          List.mem_filter.mpr ⟨htb, decide_eq_true hke⟩
        exact hnotin (List.mem_append.mpr (Or.inr (List.mem_map_of_mem _ ht')))
    show dedupMerge e b ++ _ = dedupMerge e b
    rw [hnil, List.append_nil]

/-- Witness for C6 at the previous table `[tx1]` and the batch `[tx1, tx2]`:
the duplicate `tx1` is dropped, `tx2` is appended, the rows at the key of
`tx1` stay those of the previous table, and re-merging changes nothing. -/
theorem raw_dedup_merge_witness :
    (tx2 ∈ [tx1] ∨ (tx2 ∈ [tx1, tx2] ∧ rawKey tx2 ∉ [tx1].map rawKey)) ∧
    (((dedupMerge [tx1] [tx1, tx2]).filter fun u => rawKey u = rawKey tx1)
        = [tx1].filter fun u => rawKey u = rawKey tx1) ∧
    dedupMerge (dedupMerge [tx1] [tx1, tx2]) [tx1, tx2] = dedupMerge [tx1] [tx1, tx2] :=
  ⟨(raw_dedup_merge [tx1] [tx1, tx2]).1 tx2 (by decide),
   (raw_dedup_merge [tx1] [tx1, tx2]).2.1 tx1 (by decide),
   (raw_dedup_merge [tx1] [tx1, tx2]).2.2⟩

/-- Sums of `quantity` over any filtered sub-batch are nonnegative when every
transaction has positive quantity. -/
lemma filteredQtySum_nonneg (b : List Txn) (q : Txn → Bool)
    (h : ∀ t ∈ b, 0 < t.quantity) :
    0 ≤ ((b.filter q).map Txn.quantity).sum := by
  apply List.sum_nonneg
  intro x hx
  obtain ⟨t, ht, rfl⟩ := List.mem_map.mp hx
  exact (h t (List.mem_filter.mp ht).1).le

/-- C8. Monotonicity: merging a batch whose transactions all have positive
quantity and nonnegative amount never decreases `buy_quantity` or
`sell_quantity` of any key of the previous store. -/
theorem merge_monotone_quantities (b : List Txn) (prev : Store) (k : Key) (p : AggRow)
    (hb : ∀ t ∈ b, 0 < t.quantity ∧ 0 ≤ t.amount) (hp : prev k = some p) :
    ∃ r, mergeStore prev (batchAggMap b) (currentDate b) k = some r ∧
      p.buy_quantity ≤ r.buy_quantity ∧ p.sell_quantity ≤ r.sell_quantity := by
  by_cases hk : k ∈ batchKeys b
  · refine ⟨updateRow p (withDerived (buyQty b k) (buyAmt b k) (sellQty b k) (sellAmt b k)
      (currentDate b)) (currentDate b), ?_, ?_, ?_⟩
    · unfold mergeStore batchAggMap
      rw [if_pos hk, hp]
    · show p.buy_quantity ≤ p.buy_quantity + buyQty b k
      have h0 : 0 ≤ buyQty b k := filteredQtySum_nonneg b _ fun t ht => (hb t ht).1
      linarith
    · show p.sell_quantity ≤ p.sell_quantity + sellQty b k
      have h0 : 0 ≤ sellQty b k := filteredQtySum_nonneg b _ fun t ht => (hb t ht).1
      linarith
  · refine ⟨p, ?_, le_refl _, le_refl _⟩
    unfold mergeStore batchAggMap
    rw [if_neg hk, hp]

/-- Witness for C8 at the concrete store `prevStore1` and batch `[tx1, tx2]`. -/
theorem merge_monotone_quantities_witness :
    ∃ r, mergeStore prevStore1 (batchAggMap [tx1, tx2]) (currentDate [tx1, tx2]) k1 = some r ∧
      prevRow1.buy_quantity ≤ r.buy_quantity ∧ prevRow1.sell_quantity ≤ r.sell_quantity :=
  merge_monotone_quantities [tx1, tx2] prevStore1 k1 prevRow1 (by decide) rfl

/-- A record with an absent required numeric field makes the per-record read
raise. -/
lemma toTxn_error_of_malformed (r : RawRecord)
    (h : r.quantity = none ∨ r.rate = none ∨ r.amount = none) :
    toTxn r = Except.error () := by
  unfold toTxn
  rcases hq : r.quantity with _ | q
  · rfl
  · rcases hr : r.rate with _ | rt
    · rfl
    · rcases ha : r.amount with _ | a
      · rfl
      · rcases h with h1 | h1 | h1
        · rw [hq] at h1; exact Option.noConfusion h1
        · rw [hr] at h1; exact Option.noConfusion h1
        · rw [ha] at h1; exact Option.noConfusion h1

/-- A batch containing any malformed record makes the batch read raise. -/
lemma parseBatch_error_of_malformed (rs : List RawRecord)
    (h : ∃ r ∈ rs, r.quantity = none ∨ r.rate = none ∨ r.amount = none) :
    parseBatch rs = Except.error () := by
  induction rs with
  | nil =>
    obtain ⟨r, hr, _⟩ := h
    exact absurd hr (List.not_mem_nil r)
  | cons a rs ih =>
    obtain ⟨r, hr, hbad⟩ := h
    rcases List.mem_cons.mp hr with rfl | hr'
    · unfold parseBatch
      rw [toTxn_error_of_malformed r hbad]
      cases parseBatch rs <;> rfl
    · have herr := ih ⟨r, hr', hbad⟩
      unfold parseBatch
      rw [herr]
      cases htx : toTxn a <;> rfl

/-- C9 counterexample: on a batch holding a record whose `quantity` is absent,
the run's exit code is 0 — the run does not fail, so the error raised inside
the aggregation step is not propagated to the run. -/
theorem malformed_record_run_exits_zero : mainExitCode [badRec] none = 0 := rfl

/-- C9 amended. A malformed required numeric field makes the aggregation
step's internal read raise; the blanket handler of lines 504-506 catches it:
the step returns `False` and writes no aggregate store (no silent zero
substitution, no corrupted write).  The error is not propagated: `main`
ignores the returned flag, and the run exits with code 0. -/
theorem malformed_record_caught (rs : List RawRecord) (store : Option (Except Unit Store))
    (h : ∃ r ∈ rs, r.quantity = none ∨ r.rate = none ∨ r.amount = none) :
    aggregateStepRaw rs store = (false, none) ∧ mainExitCode rs store = 0 := by
  have herr := parseBatch_error_of_malformed rs h
  have hne : rs.isEmpty = false := by
    obtain ⟨r, hr, _⟩ := h
    cases rs
    · exact absurd hr (List.not_mem_nil r)
    · rfl
  constructor
  · unfold aggregateStepRaw
    rw [herr]
  · unfold mainExitCode
    simp only [hne, Bool.false_eq_true, if_false]

/-- Witness for the amended C9 at the concrete malformed batch `[badRec]`. -/
theorem malformed_record_caught_witness :
    aggregateStepRaw [badRec] none = (false, none) ∧ mainExitCode [badRec] none = 0 :=
  malformed_record_caught [badRec] none ⟨badRec, by decide, Or.inl rfl⟩

/-- Sample caller DataFrame for the `save_to_parquet` mutation claim: two
rows, dedup columns present, no `key` column. -/
def sampleDF : PandasDF := ⟨[tx1, tx2], true, none⟩

/-- C10. In append mode with a readable existing file and the dedup columns
present, `save_to_parquet` writes a `key` column (date ++ "-" ++
transaction_no per row) into the caller's DataFrame and never removes it, so
after the call the caller's DataFrame differs from the one passed in. -/
theorem save_to_parquet_mutates_input (df : PandasDF) (ex : List Txn)
    (h1 : df.rows ≠ []) (h2 : df.hasDateCols = true) (h3 : df.keyCol = none) :
    (save_to_parquet df true (some (Except.ok ex))).1
        = { df with keyCol := some (df.rows.map rawKey) } ∧
    (save_to_parquet df true (some (Except.ok ex))).1 ≠ df := by
  have hne : df.rows.isEmpty = false := by
    cases hr : df.rows
    · exact absurd hr h1
    · rfl
  have hmain : (save_to_parquet df true (some (Except.ok ex))).1
      = { df with keyCol := some (df.rows.map rawKey) } := by
    unfold save_to_parquet
    simp only [hne, h2, Bool.false_eq_true, if_false, if_true, eq_self_iff_true]
  refine ⟨hmain, ?_⟩
  rw [hmain]
  intro hEq
  have hk : some (df.rows.map rawKey) = df.keyCol := congrArg PandasDF.keyCol hEq
  rw [h3] at hk
  exact Option.noConfusion hk

/-- Witness for C10 at the concrete DataFrame `sampleDF` and existing table
`[tx1]`. -/
theorem save_to_parquet_mutates_input_witness :
    (save_to_parquet sampleDF true (some (Except.ok [tx1]))).1
        = { sampleDF with keyCol := some (sampleDF.rows.map rawKey) } ∧
    (save_to_parquet sampleDF true (some (Except.ok [tx1]))).1 ≠ sampleDF :=
  save_to_parquet_mutates_input sampleDF [tx1] (by decide) rfl rfl

end Floorsheet
